import Mathlib

/-!
Verification of the break-scheduling core of the `mindfulbreaks` repository.

The development shallowly embeds three Python classes:

* `TimerManager` (src/timer_manager.py) — the countdown state machine.
  The mutable object becomes a record; each method becomes a function
  returning the updated record together with the list of GObject signals
  it emits, in emission order.  The GLib timer source handle
  (`_timer_source_id`) is modelled by the boolean `timer_source_active`;
  the 1-second callback `_tick` becomes `tick`, returning additionally
  the boolean that `_tick` returns to GLib (keep firing or stop).
* `IdleMonitor` (src/idle_monitor.py) — idle polling with edge-triggered
  events.  The X11 resources (`_display`, `_saver_info`) are folded into
  the `_initialized_successfully` flag; the outcome of one
  `XScreenSaverQueryInfo` poll is passed in as a `QueryResult`.
* `MindfulBreakApp` (src/mindful_break_app.py) — the pause arbiter: the
  flags `_paused_due_to_idle`, `_manual_pause_timer_id` (as a boolean)
  and `_manual_pause_remaining_seconds`, with the signal handlers that
  mediate between idle pausing and manual timed pausing.  Calls the app
  makes into the engine are recorded as `EngineCall`s; signals the
  engine emits during such a call are fed back synchronously into the
  app's own handlers (`react`), exactly as GObject signal emission does.

Python `float` minutes are modelled by `ℚ`; Python 3 `round` is
banker's rounding, embedded as `pyRound`.
-/

/-- Python 3 `round` on a rational: round half to even. -/
def pyRound (q : ℚ) : ℤ :=
  let f : ℤ := ⌊q⌋
  if q - f < 1/2 then f
  else if 1/2 < q - f then f + 1
  else if f % 2 = 0 then f else f + 1

/-- Python `round` of an integer is that integer. -/
lemma pyRound_intCast (n : ℤ) : pyRound (n : ℚ) = n := by
  unfold pyRound
  norm_num

/-- `0.1` minutes round to 6 seconds. -/
lemma pyRound_six : pyRound (6 : ℚ) = 6 := by
  rw [show (6 : ℚ) = ((6 : ℤ) : ℚ) by norm_num, pyRound_intCast]

/-- `1` minute rounds to 60 seconds. -/
lemma pyRound_sixty : pyRound (60 : ℚ) = 60 := by
  rw [show (60 : ℚ) = ((60 : ℤ) : ℚ) by norm_num, pyRound_intCast]

/-- `5` minutes round to 300 seconds. -/
lemma pyRound_three_hundred : pyRound (300 : ℚ) = 300 := by
  rw [show (300 : ℚ) = ((300 : ℤ) : ℚ) by norm_num, pyRound_intCast]

/-- The four states of `TimerManager` (STATE_STOPPED … STATE_BREAK_ACTIVE). -/
inductive TMState
  | stopped
  | running
  | paused
  | break_active
deriving DecidableEq, Repr

/-- The signals `TimerManager` can emit (`__gsignals__`). -/
inductive TimerEv
  | timer_started
  | timer_paused
  | timer_resumed
  | timer_stopped
  | timer_tick (remaining_seconds : ℤ)
  | break_started
deriving DecidableEq, Repr

/-- The mutable fields of a `TimerManager` object.  `timer_source_active`
models whether `_timer_source_id` currently holds a GLib source id. -/
structure TimerManager where
  state : TMState
  timer_source_active : Bool
  remaining_seconds : ℤ
  configured_interval_seconds : ℤ
deriving DecidableEq, Repr

namespace TimerManager

/-- `__init__`: stopped, no timer source, counters at zero. -/
def initial : TimerManager :=
  { state := .stopped
    timer_source_active := false
    remaining_seconds := 0
    configured_interval_seconds := 0 }

/-- `_stop_internal_timer`: removes the GLib source if one exists. -/
def stop_internal_timer (t : TimerManager) : TimerManager :=
  if t.timer_source_active then { t with timer_source_active := false } else t

/-- `set_interval(minutes)`: converts to whole seconds (Python `round`,
clamped to at least 1), stores the configured interval, and, when
stopped, primes `remaining_seconds` for the next start. -/
def set_interval (t : TimerManager) (minutes : ℚ) : TimerManager :=
  let interval_seconds := pyRound (minutes * 60)
  let interval_seconds := if interval_seconds < 1 then 1 else interval_seconds
  let t := { t with configured_interval_seconds := interval_seconds }
  if t.state = TMState.stopped then
    { t with remaining_seconds := t.configured_interval_seconds }
  else t

/-- `start()`: clears any timer source; if no interval is configured it
is a silent no-op, otherwise enters `running` with the full configured
interval, schedules the tick, and emits `timer_started` then an
immediate `timer_tick`. -/
def start (t : TimerManager) : TimerManager × List TimerEv :=
  let t := stop_internal_timer t
  if t.configured_interval_seconds ≤ 0 then (t, [])
  else
    let t := { t with
      state := .running
      remaining_seconds := t.configured_interval_seconds
      timer_source_active := true }
    (t, [.timer_started, .timer_tick t.remaining_seconds])

/-- `pause()`: only from `running`; stops the tick source and emits
`timer_paused`; otherwise a silent no-op. -/
def pause (t : TimerManager) : TimerManager × List TimerEv :=
  if t.state = TMState.running then
    let t := { t with state := .paused }
    let t := stop_internal_timer t
    (t, [.timer_paused])
  else (t, [])

/-- `_enter_break_state`: sets `break_active`, forces the counter to
exactly zero, drops the timer source, emits `break_started`. -/
def enter_break_state (t : TimerManager) : TimerManager × List TimerEv :=
  ({ t with state := .break_active, remaining_seconds := 0, timer_source_active := false },
   [.break_started])

/-- `resume()`: only from `paused`; with time left it re-enters
`running`, restarts the tick source and emits `timer_resumed` then an
immediate `timer_tick`; with no time left it falls into the defensive
branch that enters the break state directly. -/
def resume (t : TimerManager) : TimerManager × List TimerEv :=
  if t.state = TMState.paused then
    let t := { t with state := .running }
    if 0 < t.remaining_seconds then
      ({ t with timer_source_active := true },
       [.timer_resumed, .timer_tick t.remaining_seconds])
    else
      enter_break_state t
  else (t, [])

/-- `stop()`: from any state, clears the timer source, enters `stopped`
and resets `remaining_seconds` to the configured interval; emits
`timer_stopped` only when the state actually changed. -/
def stop (t : TimerManager) : TimerManager × List TimerEv :=
  let previous_state := t.state
  let t := stop_internal_timer t
  let t := { t with state := .stopped, remaining_seconds := t.configured_interval_seconds }
  (t, if previous_state ≠ TMState.stopped then [.timer_stopped] else [])

/-- `postpone(minutes)`: clears any timer source, converts minutes to
whole seconds (Python `round`, clamped to at least 1), force-enters
`running` with that many seconds, restarts the tick and emits
`timer_started` then an immediate `timer_tick`. -/
def postpone (t : TimerManager) (minutes : ℚ) : TimerManager × List TimerEv :=
  let t := stop_internal_timer t
  let postpone_seconds := pyRound (minutes * 60)
  let postpone_seconds := if postpone_seconds < 1 then 1 else postpone_seconds
  let t := { t with
    state := .running
    remaining_seconds := postpone_seconds
    timer_source_active := true }
  (t, [.timer_started, .timer_tick t.remaining_seconds])

/-- `_tick()`: the 1-second GLib callback.  Outside `running` it drops
the source and returns `false`.  In `running` it decrements the
counter; while still positive it emits `timer_tick` and keeps firing,
otherwise it enters the break state and stops firing. -/
def tick (t : TimerManager) : TimerManager × List TimerEv × Bool :=
  if t.state ≠ TMState.running then
    ({ t with timer_source_active := false }, [], false)
  else
    let t := { t with remaining_seconds := t.remaining_seconds - 1 }
    if 0 < t.remaining_seconds then
      (t, [.timer_tick t.remaining_seconds], true)
    else
      let r := enter_break_state t
      (r.1, r.2, false)

/-- Run `n` consecutive firings of the 1-second tick, concatenating the
emitted signals in order. -/
def ticks (t : TimerManager) : ℕ → TimerManager × List TimerEv
  | 0 => (t, [])
  | n + 1 =>
    let r := tick t
    let rest := ticks r.1 n
    (rest.1, r.2.1 ++ rest.2)

end TimerManager

/-- From any prior engine state, `set_interval(0.1)` then `start()`
yields a running engine with 6 seconds on the clock. -/
lemma start_set_interval_point_one (t : TimerManager) :
    TimerManager.start (TimerManager.set_interval t (1/10))
      = ({ state := .running, timer_source_active := true,
           remaining_seconds := 6, configured_interval_seconds := 6 },
         [.timer_started, .timer_tick 6]) := by
  obtain ⟨st, ta, rem, cfg⟩ := t
  cases st <;> cases ta <;>
    (norm_num [TimerManager.set_interval, TimerManager.start,
      TimerManager.stop_internal_timer, pyRound_six]
     <;> simp +decide)

/-- From any prior engine state, `set_interval(1)` then `start()`
yields a running engine with 60 seconds on the clock. -/
lemma start_set_interval_one (t : TimerManager) :
    TimerManager.start (TimerManager.set_interval t 1)
      = ({ state := .running, timer_source_active := true,
           remaining_seconds := 60, configured_interval_seconds := 60 },
         [.timer_started, .timer_tick 60]) := by
  obtain ⟨st, ta, rem, cfg⟩ := t
  cases st <;> cases ta <;>
    (norm_num [TimerManager.set_interval, TimerManager.start,
      TimerManager.stop_internal_timer, pyRound_sixty]
     <;> simp +decide)

/-- C1: `set_interval(0.1)` configures 6 seconds; from any prior engine
state, `start()` then emits `timer_started` followed by an immediate
`timer_tick 6`, the next five tick firings emit `timer_tick 5 … 1`
(each decrementing by one while still positive), and the 6th firing
emits only `break_started`, leaving the engine in `break_active` with
`remaining_seconds = 0` — no `timer_tick 0` is ever emitted. -/
theorem C1_scenarioA (t : TimerManager) :
    (TimerManager.start (TimerManager.set_interval t (1/10))).2
      = [.timer_started, .timer_tick 6] ∧
    (TimerManager.start (TimerManager.set_interval t (1/10))).1
      = { state := .running, timer_source_active := true,
          remaining_seconds := 6, configured_interval_seconds := 6 } ∧
    (TimerManager.ticks (TimerManager.start (TimerManager.set_interval t (1/10))).1 6).2
      = [.timer_tick 5, .timer_tick 4, .timer_tick 3, .timer_tick 2, .timer_tick 1,
         .break_started] ∧
    (TimerManager.ticks (TimerManager.start (TimerManager.set_interval t (1/10))).1 6).1
      = { state := .break_active, timer_source_active := false,
          remaining_seconds := 0, configured_interval_seconds := 6 } := by
  rw [start_set_interval_point_one]
  exact ⟨rfl, rfl, by decide, by decide⟩

/-- C8: Scenario B.  With a 60-second interval, after `start()` and two
tick firings the engine is paused at `remaining_seconds = 58`;
`resume()` emits `timer_resumed` followed by an immediate
`timer_tick 58`, and the first tick firing after the resume yields
`remaining_seconds = 57`. -/
theorem C8_scenarioB (t : TimerManager) :
    (TimerManager.ticks (TimerManager.start (TimerManager.set_interval t 1)).1 2).1.remaining_seconds
      = 58 ∧
    (TimerManager.resume
      (TimerManager.pause
        (TimerManager.ticks (TimerManager.start (TimerManager.set_interval t 1)).1 2).1).1).2
      = [.timer_resumed, .timer_tick 58] ∧
    (TimerManager.tick
      (TimerManager.resume
        (TimerManager.pause
          (TimerManager.ticks (TimerManager.start (TimerManager.set_interval t 1)).1 2).1).1).1).2.1
      = [.timer_tick 57] ∧
    (TimerManager.tick
      (TimerManager.resume
        (TimerManager.pause
          (TimerManager.ticks (TimerManager.start (TimerManager.set_interval t 1)).1 2).1).1).1).1.remaining_seconds
      = 57 := by
  rw [start_set_interval_one]
  exact ⟨by decide, by decide, by decide, by decide⟩

/-- C5 counterexample: starting from the freshly constructed (already
stopped) engine, calling `stop()` twice emits `timer_stopped` zero
times, not exactly once. -/
theorem C5_counterexample :
    ¬ (((TimerManager.stop TimerManager.initial).2
        ++ (TimerManager.stop (TimerManager.stop TimerManager.initial).1).2).count
          TimerEv.timer_stopped = 1) := by
  decide

/-- C5 (amended): calling `stop()` twice in a row emits `timer_stopped`
at most once — exactly once when the starting state was not already
`stopped`, and zero times when it was; in either case both calls leave
the engine `stopped` with `remaining_seconds` reset to
`configured_interval_seconds`, and the second call emits nothing. -/
theorem C5_stop_idempotent (t : TimerManager) :
    (TimerManager.stop t).1.state = TMState.stopped ∧
    (TimerManager.stop t).1.remaining_seconds = t.configured_interval_seconds ∧
    (TimerManager.stop (TimerManager.stop t).1).1.state = TMState.stopped ∧
    (TimerManager.stop (TimerManager.stop t).1).1.remaining_seconds
      = t.configured_interval_seconds ∧
    (TimerManager.stop (TimerManager.stop t).1).2 = [] ∧
    (t.state ≠ TMState.stopped →
      ((TimerManager.stop t).2
        ++ (TimerManager.stop (TimerManager.stop t).1).2).count TimerEv.timer_stopped = 1) ∧
    (t.state = TMState.stopped →
      ((TimerManager.stop t).2
        ++ (TimerManager.stop (TimerManager.stop t).1).2).count TimerEv.timer_stopped = 0) := by
  obtain ⟨st, ta, rem, cfg⟩ := t
  cases st <;> cases ta <;>
    simp +decide [TimerManager.stop, TimerManager.stop_internal_timer]

/-- C5 witness: a running engine, stopped twice, emits `timer_stopped`
exactly once. -/
theorem C5_witness :
    ({ state := TMState.running, timer_source_active := true, remaining_seconds := 58,
       configured_interval_seconds := 60 } : TimerManager).state ≠ TMState.stopped ∧
    ((TimerManager.stop
        { state := TMState.running, timer_source_active := true, remaining_seconds := 58,
          configured_interval_seconds := 60 }).2
      ++ (TimerManager.stop
            (TimerManager.stop
              { state := TMState.running, timer_source_active := true, remaining_seconds := 58,
                configured_interval_seconds := 60 }).1).2).count TimerEv.timer_stopped = 1 :=
  ⟨by decide,
   (C5_stop_idempotent
     { state := TMState.running, timer_source_active := true, remaining_seconds := 58,
       configured_interval_seconds := 60 }).2.2.2.2.2.1 (by decide)⟩

/-- C9: invalid state-transition requests are silent no-ops.  When not
`running`, `pause()` returns the state (all fields included) unchanged
and emits nothing; when not `paused`, `resume()` likewise; both are
total functions, so neither can raise. -/
theorem C9_invalid_requests_noop (t : TimerManager) :
    (t.state ≠ TMState.running → TimerManager.pause t = (t, [])) ∧
    (t.state ≠ TMState.paused → TimerManager.resume t = (t, [])) := by
  constructor <;> intro h <;>
    simp [TimerManager.pause, TimerManager.resume, h]

/-- C9 witness: on the freshly constructed (stopped) engine, both
`pause()` and `resume()` are exact no-ops. -/
theorem C9_witness :
    TimerManager.initial.state ≠ TMState.running ∧
    TimerManager.pause TimerManager.initial = (TimerManager.initial, []) ∧
    TimerManager.initial.state ≠ TMState.paused ∧
    TimerManager.resume TimerManager.initial = (TimerManager.initial, []) :=
  ⟨by decide, (C9_invalid_requests_noop TimerManager.initial).1 (by decide),
   by decide, (C9_invalid_requests_noop TimerManager.initial).2 (by decide)⟩

/-- The public operations of the Countdown Engine (plus the internal
1-second tick firing), as events that can be applied to an engine. -/
inductive TimerOp
  | set_interval_op (minutes : ℚ)
  | start_op
  | pause_op
  | resume_op
  | stop_op
  | postpone_op (minutes : ℚ)
  | tick_op
deriving DecidableEq

/-- Apply one operation, keeping only the resulting engine state. -/
def TimerManager.apply (t : TimerManager) : TimerOp → TimerManager
  | .set_interval_op m => t.set_interval m
  | .start_op => t.start.1
  | .pause_op => t.pause.1
  | .resume_op => t.resume.1
  | .stop_op => t.stop.1
  | .postpone_op m => (t.postpone m).1
  | .tick_op => t.tick.1

/-- Apply a sequence of operations left to right. -/
def TimerManager.applyOps (t : TimerManager) : List TimerOp → TimerManager
  | [] => t
  | op :: ops => TimerManager.applyOps (t.apply op) ops

/-- `pause()` never changes `remaining_seconds`. -/
lemma pause_remaining (t : TimerManager) :
    (TimerManager.pause t).1.remaining_seconds = t.remaining_seconds := by
  obtain ⟨st, ta, rem, cfg⟩ := t
  cases st <;> cases ta <;>
    simp [TimerManager.pause, TimerManager.stop_internal_timer]

/-- `resume()` never changes a non-negative `remaining_seconds`: either
it restarts with the same value, or the defensive zero branch rewrites
a zero with a zero. -/
lemma resume_remaining (t : TimerManager) (h : 0 ≤ t.remaining_seconds) :
    (TimerManager.resume t).1.remaining_seconds = t.remaining_seconds := by
  obtain ⟨st, ta, rem, cfg⟩ := t
  cases st <;>
    simp [TimerManager.resume, TimerManager.enter_break_state] <;>
    split_ifs <;> simp_all <;> omega

/-- C4: for every engine state with a non-negative counter and every
sequence composed only of `pause()` and `resume()` calls (no tick
firings interleaved), `remaining_seconds` is unchanged at the end of
the sequence; among the engine's operations only the 1-second tick
(and the resetting `postpone`/`start`/`stop`/`set_interval`) can move
it. -/
theorem C4_pause_resume_frame (t : TimerManager) (h0 : 0 ≤ t.remaining_seconds)
    (ops : List TimerOp)
    (hops : ∀ op ∈ ops, op = TimerOp.pause_op ∨ op = TimerOp.resume_op) :
    (TimerManager.applyOps t ops).remaining_seconds = t.remaining_seconds := by
  induction ops generalizing t with
  | nil => rfl
  | cons op ops ih =>
    have hop := hops op (by simp)
    have hops' : ∀ o ∈ ops, o = TimerOp.pause_op ∨ o = TimerOp.resume_op :=
      fun o ho => hops o (List.mem_cons_of_mem _ ho)
    rcases hop with h | h <;> subst h
    · have hp : (t.apply TimerOp.pause_op).remaining_seconds = t.remaining_seconds :=
        pause_remaining t
      rw [TimerManager.applyOps, ih _ (by rw [hp]; exact h0) hops', hp]
    · have hp : (t.apply TimerOp.resume_op).remaining_seconds = t.remaining_seconds :=
        resume_remaining t h0
      rw [TimerManager.applyOps, ih _ (by rw [hp]; exact h0) hops', hp]

/-- C4 witness: pausing then resuming a running engine at 58 seconds
leaves `remaining_seconds` at 58. -/
theorem C4_witness :
    (0 : ℤ) ≤ ({ state := TMState.running, timer_source_active := true,
                 remaining_seconds := 58, configured_interval_seconds := 60 }
                : TimerManager).remaining_seconds ∧
    (∀ op ∈ [TimerOp.pause_op, TimerOp.resume_op],
      op = TimerOp.pause_op ∨ op = TimerOp.resume_op) ∧
    (TimerManager.applyOps
      { state := TMState.running, timer_source_active := true,
        remaining_seconds := 58, configured_interval_seconds := 60 }
      [TimerOp.pause_op, TimerOp.resume_op]).remaining_seconds
      = ({ state := TMState.running, timer_source_active := true,
           remaining_seconds := 58, configured_interval_seconds := 60 }
          : TimerManager).remaining_seconds :=
  ⟨by decide, by decide,
   C4_pause_resume_frame _ (by decide) _ (by decide)⟩

/-- States of the Countdown Engine reachable through its operations
after a first `set_interval` call with a positive duration. -/
inductive ReachableAfterInterval : TimerManager → Prop
  | base (m : ℚ) (hm : 0 < m) :
      ReachableAfterInterval (TimerManager.set_interval TimerManager.initial m)
  | step (t : TimerManager) (op : TimerOp) :
      ReachableAfterInterval t → ReachableAfterInterval (t.apply op)

/-- The state invariant of the Countdown Engine: the configured
interval is at least one second, the counter is non-negative and hits
zero exactly in `break_active`, and in `stopped` the counter equals the
configured interval. -/
def TimerInv (t : TimerManager) : Prop :=
  1 ≤ t.configured_interval_seconds ∧
  0 ≤ t.remaining_seconds ∧
  (t.remaining_seconds = 0 ↔ t.state = TMState.break_active) ∧
  (t.state = TMState.stopped → t.remaining_seconds = t.configured_interval_seconds)

/-- Every engine operation preserves the state invariant. -/
lemma timerInv_apply (t : TimerManager) (op : TimerOp) (h : TimerInv t) :
    TimerInv (t.apply op) := by
  obtain ⟨st, ta, rem, cfg⟩ := t
  obtain ⟨h1, h2, h3, h4⟩ := h
  cases op <;> cases st <;> cases ta <;>
    simp_all [TimerManager.apply, TimerManager.set_interval, TimerManager.start,
      TimerManager.pause, TimerManager.resume, TimerManager.stop,
      TimerManager.postpone, TimerManager.tick, TimerManager.enter_break_state,
      TimerManager.stop_internal_timer, TimerInv] <;>
    (try split_ifs) <;> (try simp_all) <;> omega

/-- Every state reachable after configuring a positive interval
satisfies the invariant. -/
lemma reachable_timerInv (t : TimerManager) (h : ReachableAfterInterval t) :
    TimerInv t := by
  induction h with
  | base m hm =>
    simp only [TimerManager.set_interval, TimerManager.initial, TimerInv]
    split_ifs <;> simp_all <;> omega
  | step t op ht ih => exact timerInv_apply t op ih

/-- C2: in every state reachable through the engine's operations after
`set_interval` with a positive duration, `remaining_seconds` is zero
exactly in `break_active` (so in `paused` it is positive and the
defensive zero branch of `resume()` is unreachable); the tick firing
changes `remaining_seconds` only while `running`, and neither `pause()`
nor `resume()` ever changes it; and any operation that lands the engine
in `stopped` leaves `remaining_seconds` equal to
`configured_interval_seconds`. -/
theorem C2_countdown_invariants (t : TimerManager) (h : ReachableAfterInterval t) :
    (t.remaining_seconds = 0 ↔ t.state = TMState.break_active) ∧
    (t.state = TMState.paused → 0 < t.remaining_seconds) ∧
    (TimerManager.pause t).1.remaining_seconds = t.remaining_seconds ∧
    (TimerManager.resume t).1.remaining_seconds = t.remaining_seconds ∧
    (t.state ≠ TMState.running →
      (TimerManager.tick t).1.remaining_seconds = t.remaining_seconds) ∧
    (∀ op : TimerOp, (t.apply op).state = TMState.stopped →
      (t.apply op).remaining_seconds = (t.apply op).configured_interval_seconds) := by
  obtain ⟨h1, h2, h3, h4⟩ := reachable_timerInv t h
  refine ⟨h3, ?_, pause_remaining t, resume_remaining t h2, ?_, ?_⟩
  · intro hp
    by_contra hle
    push_neg at hle
    have h0 : t.remaining_seconds = 0 := le_antisymm hle h2
    have hb := h3.mp h0
    rw [hp] at hb
    exact absurd hb (by decide)
  · intro hnr
    simp [TimerManager.tick, hnr]
  · intro op hs
    exact (timerInv_apply t op ⟨h1, h2, h3, h4⟩).2.2.2 hs

/-- C2 witness: the state right after `set_interval(1)` on a fresh
engine is reachable and satisfies all the invariant conclusions. -/
theorem C2_witness :
    ReachableAfterInterval (TimerManager.set_interval TimerManager.initial 1) ∧
    (((TimerManager.set_interval TimerManager.initial 1).remaining_seconds = 0
        ↔ (TimerManager.set_interval TimerManager.initial 1).state = TMState.break_active) ∧
     ((TimerManager.set_interval TimerManager.initial 1).state = TMState.paused →
        0 < (TimerManager.set_interval TimerManager.initial 1).remaining_seconds) ∧
     (TimerManager.pause (TimerManager.set_interval TimerManager.initial 1)).1.remaining_seconds
        = (TimerManager.set_interval TimerManager.initial 1).remaining_seconds ∧
     (TimerManager.resume (TimerManager.set_interval TimerManager.initial 1)).1.remaining_seconds
        = (TimerManager.set_interval TimerManager.initial 1).remaining_seconds ∧
     ((TimerManager.set_interval TimerManager.initial 1).state ≠ TMState.running →
        (TimerManager.tick (TimerManager.set_interval TimerManager.initial 1)).1.remaining_seconds
          = (TimerManager.set_interval TimerManager.initial 1).remaining_seconds) ∧
     (∀ op : TimerOp,
        ((TimerManager.set_interval TimerManager.initial 1).apply op).state = TMState.stopped →
        ((TimerManager.set_interval TimerManager.initial 1).apply op).remaining_seconds
          = ((TimerManager.set_interval TimerManager.initial
              1).apply op).configured_interval_seconds)) :=
  ⟨ReachableAfterInterval.base 1 (by norm_num),
   C2_countdown_invariants _ (ReachableAfterInterval.base 1 (by norm_num))⟩

/-- The signals `IdleMonitor` can emit (`__gsignals__`). -/
inductive IdleEv
  | user_idle
  | user_active
deriving DecidableEq, Repr

/-- Outcome of one `XScreenSaverQueryInfo` poll: a successful query
returning the idle milliseconds, the `status == 0` soft-failure path,
or an exception raised by the X call. -/
inductive QueryResult
  | ok (idle_ms : ℕ)
  | statusZero
  | queryError
deriving DecidableEq, Repr

/-- The mutable fields of an `IdleMonitor` object.  The X11 resource
handles (`_display`, `_root_window`, `_saver_info`) are folded into
`initialized_successfully`, which the source keeps in sync with them;
`timer_source_active` models `_timer_source_id`. -/
structure IdleMonitor where
  is_idle : Bool
  idle_threshold_ms : ℕ
  timer_source_active : Bool
  initialized_successfully : Bool
deriving DecidableEq, Repr

namespace IdleMonitor

/-- `start(poll_interval_seconds)`: no-op if the construction failed or
polling is already scheduled; otherwise schedules the recurring poll.
(The clamped poll interval and the extra immediate `GLib.idle_add`
check affect scheduling only, not the monitor's fields.) -/
def start (s : IdleMonitor) (poll_interval_seconds : ℕ) : IdleMonitor :=
  if ¬ s.initialized_successfully then s
  else if s.timer_source_active then s
  else { s with timer_source_active := true }

/-- `stop()`: removes the poll source if present, then releases the X
resources and clears `initialized_successfully`. -/
def stop (s : IdleMonitor) : IdleMonitor :=
  let s := if s.timer_source_active then { s with timer_source_active := false } else s
  if s.initialized_successfully then { s with initialized_successfully := false } else s

/-- `_check_idle()`: one poll.  Returns the updated monitor, the
emitted signals, and the boolean handed back to GLib (keep the timer
or drop it). -/
def check_idle (s : IdleMonitor) (q : QueryResult) : IdleMonitor × List IdleEv × Bool :=
  if ¬ s.initialized_successfully then (s, [], false)
  else
    match q with
    | .statusZero => (s, [], true)
    | .queryError => (s, [], s.timer_source_active)
    | .ok idle_ms =>
      let currently_considered_idle := s.idle_threshold_ms ≤ idle_ms
      if currently_considered_idle ∧ s.is_idle = false then
        ({ s with is_idle := true }, [.user_idle], s.timer_source_active)
      else if ¬ currently_considered_idle ∧ s.is_idle = true then
        ({ s with is_idle := false }, [.user_active], s.timer_source_active)
      else
        (s, [], s.timer_source_active)

end IdleMonitor

/-- C7: on an operational monitor, a poll emits `user_idle` exactly on
the idle crossing (measured idle at or above threshold while `is_idle`
was false), `user_active` exactly on the reverse crossing, and nothing
when the comparison leaves `is_idle` unchanged; a poll whose platform
query fails (status 0 or exception) leaves the monitor — `is_idle`
included — untouched, emits nothing, and keeps the polling alive. -/
theorem C7_edge_triggered (s : IdleMonitor) (q : QueryResult)
    (hinit : s.initialized_successfully = true) :
    (∀ ms, q = QueryResult.ok ms →
      ((s.idle_threshold_ms ≤ ms ∧ s.is_idle = false →
          IdleMonitor.check_idle s q
            = ({ s with is_idle := true }, [IdleEv.user_idle], s.timer_source_active)) ∧
       (ms < s.idle_threshold_ms ∧ s.is_idle = true →
          IdleMonitor.check_idle s q
            = ({ s with is_idle := false }, [IdleEv.user_active], s.timer_source_active)) ∧
       (decide (s.idle_threshold_ms ≤ ms) = s.is_idle →
          IdleMonitor.check_idle s q = (s, [], s.timer_source_active)))) ∧
    (q = QueryResult.statusZero ∨ q = QueryResult.queryError →
      (IdleMonitor.check_idle s q).1 = s ∧
      (IdleMonitor.check_idle s q).2.1 = [] ∧
      (s.timer_source_active = true → (IdleMonitor.check_idle s q).2.2 = true)) := by
  constructor
  · rintro ms rfl
    refine ⟨?_, ?_, ?_⟩
    · rintro ⟨hms, hidle⟩
      simp [IdleMonitor.check_idle, hinit, hms, hidle]
    · rintro ⟨hms, hidle⟩
      simp [IdleMonitor.check_idle, hinit, hidle, not_le.mpr hms]
    · intro heq
      rcases hms : decide (s.idle_threshold_ms ≤ ms) with _ | _ <;>
        rw [hms] at heq <;>
        simp_all [IdleMonitor.check_idle, hinit]
  · rintro (rfl | rfl) <;> simp [IdleMonitor.check_idle, hinit]

/-- C7 witness: an operational, non-idle monitor with a 120000 ms
threshold, polled successfully at 120000 ms idle, emits `user_idle`;
polled with a failing query it stays untouched and keeps polling. -/
theorem C7_witness :
    ({ is_idle := false, idle_threshold_ms := 120000, timer_source_active := true,
       initialized_successfully := true } : IdleMonitor).initialized_successfully = true ∧
    (120000 : ℕ) ≤ 120000 ∧
    IdleMonitor.check_idle
        { is_idle := false, idle_threshold_ms := 120000, timer_source_active := true,
          initialized_successfully := true } (QueryResult.ok 120000)
      = ({ is_idle := true, idle_threshold_ms := 120000, timer_source_active := true,
           initialized_successfully := true }, [IdleEv.user_idle], true) ∧
    (IdleMonitor.check_idle
        { is_idle := false, idle_threshold_ms := 120000, timer_source_active := true,
          initialized_successfully := true } QueryResult.queryError).1
      = { is_idle := false, idle_threshold_ms := 120000, timer_source_active := true,
          initialized_successfully := true } :=
  ⟨by decide, by decide,
   ((C7_edge_triggered _ (QueryResult.ok 120000) (by decide)).1 120000 rfl).1
     ⟨by decide, by decide⟩,
   ((C7_edge_triggered _ QueryResult.queryError (by decide)).2 (Or.inr rfl)).1⟩

/-- C10: once `stop()` has run on a successfully constructed monitor,
`initialized_successfully` is cleared, every later `start()` (with any
poll interval, any number of times) is an exact no-op, and a poll on
the stopped monitor emits nothing and tells GLib to stop.  Only a new
instance can restart idle detection. -/
theorem C10_stop_is_final (s : IdleMonitor)
    (hinit : s.initialized_successfully = true) :
    (IdleMonitor.stop s).initialized_successfully = false ∧
    (∀ p, IdleMonitor.start (IdleMonitor.stop s) p = IdleMonitor.stop s) ∧
    (∀ ps : List ℕ, ps.foldl IdleMonitor.start (IdleMonitor.stop s) = IdleMonitor.stop s) ∧
    (∀ q, IdleMonitor.check_idle (IdleMonitor.stop s) q = (IdleMonitor.stop s, [], false)) := by
  have hstop : (IdleMonitor.stop s).initialized_successfully = false := by
    obtain ⟨i, th, ta, ini⟩ := s
    cases ta <;> simp_all [IdleMonitor.stop]
  have hstart : ∀ p, IdleMonitor.start (IdleMonitor.stop s) p = IdleMonitor.stop s := by
    intro p
    simp [IdleMonitor.start, hstop]
  refine ⟨hstop, hstart, ?_, ?_⟩
  · intro ps
    induction ps with
    | nil => rfl
    | cons p ps ih => rw [List.foldl_cons, hstart p, ih]
  · intro q
    simp [IdleMonitor.check_idle, hstop]

/-- C10 witness: stopping a fresh operational monitor clears the flag,
and a subsequent `start(30)` (twice over) is a no-op, as is polling. -/
theorem C10_witness :
    ({ is_idle := false, idle_threshold_ms := 120000, timer_source_active := true,
       initialized_successfully := true } : IdleMonitor).initialized_successfully = true ∧
    (IdleMonitor.stop
        { is_idle := false, idle_threshold_ms := 120000, timer_source_active := true,
          initialized_successfully := true }).initialized_successfully = false ∧
    (∀ p, IdleMonitor.start
        (IdleMonitor.stop
          { is_idle := false, idle_threshold_ms := 120000, timer_source_active := true,
            initialized_successfully := true }) p
      = IdleMonitor.stop
          { is_idle := false, idle_threshold_ms := 120000, timer_source_active := true,
            initialized_successfully := true }) :=
  ⟨by decide,
   (C10_stop_is_final _ (by decide)).1,
   (C10_stop_is_final _ (by decide)).2.1⟩

/-- Calls the application layer makes into the Countdown Engine while
arbitrating pause causes. -/
inductive EngineCall
  | pause_call
  | resume_call
deriving DecidableEq, Repr

/-- The pause-arbiter fields of `MindfulBreakApp`, together with the
engine it drives.  `manual_pause_active` models whether
`_manual_pause_timer_id` currently holds a GLib source id. -/
structure MindfulBreakApp where
  timer_manager : TimerManager
  paused_due_to_idle : Bool
  manual_pause_active : Bool
  manual_pause_remaining_seconds : ℤ
deriving DecidableEq, Repr

namespace MindfulBreakApp

/-- `_cancel_manual_pause`: stops the manual pause countdown if it is
active (the tray-icon restoration it also performs has no state). -/
def cancel_manual_pause (a : MindfulBreakApp) : MindfulBreakApp :=
  if a.manual_pause_active then
    { a with manual_pause_active := false, manual_pause_remaining_seconds := 0 }
  else a

/-- The app's own handlers for engine signals, as GObject delivers them
synchronously during an engine call: `on_timer_resumed`,
`on_timer_started` and `on_timer_stopped` cancel the manual pause and
clear the idle flag; the remaining handlers only update visuals. -/
def react (a : MindfulBreakApp) (e : TimerEv) : MindfulBreakApp :=
  match e with
  | .timer_resumed => { cancel_manual_pause a with paused_due_to_idle := false }
  | .timer_started => { cancel_manual_pause a with paused_due_to_idle := false }
  | .timer_stopped => { cancel_manual_pause a with paused_due_to_idle := false }
  | _ => a

/-- Feed a list of engine signals through the app's handlers in order. -/
def reactAll (a : MindfulBreakApp) (evs : List TimerEv) : MindfulBreakApp :=
  evs.foldl react a

/-- `self.timer_manager.pause()` with synchronous signal dispatch. -/
def call_pause (a : MindfulBreakApp) : MindfulBreakApp :=
  reactAll { a with timer_manager := (TimerManager.pause a.timer_manager).1 }
    (TimerManager.pause a.timer_manager).2

/-- `self.timer_manager.resume()` with synchronous signal dispatch. -/
def call_resume (a : MindfulBreakApp) : MindfulBreakApp :=
  reactAll { a with timer_manager := (TimerManager.resume a.timer_manager).1 }
    (TimerManager.resume a.timer_manager).2

/-- `on_user_idle`: ignored outright while a manual pause is active;
otherwise pauses the engine (marking the idle cause) only if it is
running. -/
def on_user_idle (a : MindfulBreakApp) : MindfulBreakApp × List EngineCall :=
  if a.manual_pause_active then (a, [])
  else if a.timer_manager.state = TMState.running then
    (call_pause { a with paused_due_to_idle := true }, [.pause_call])
  else (a, [])

/-- `on_user_active`: while a manual pause is active it only clears the
idle flag; otherwise it resumes the engine only when it is paused due
to idle, or just clears a stale idle flag. -/
def on_user_active (a : MindfulBreakApp) : MindfulBreakApp × List EngineCall :=
  if a.manual_pause_active then ({ a with paused_due_to_idle := false }, [])
  else if a.timer_manager.state = TMState.paused ∧ a.paused_due_to_idle = true then
    (call_resume a, [.resume_call])
  else if a.paused_due_to_idle = true then ({ a with paused_due_to_idle := false }, [])
  else (a, [])

/-- `on_pause_dialog_response` on the OK response with the chosen
duration: rejects non-positive durations, clears the idle flag, pauses
the engine if (and only if) it is running, then arms the manual pause
countdown with the requested number of seconds. -/
def on_pause_dialog_ok (a : MindfulBreakApp) (duration_seconds : ℤ) :
    MindfulBreakApp × List EngineCall :=
  if duration_seconds ≤ 0 then (a, [])
  else
    let a := { a with paused_due_to_idle := false }
    let r := if a.timer_manager.state = TMState.running
             then (call_pause a, [EngineCall.pause_call]) else (a, [])
    ({ r.1 with manual_pause_remaining_seconds := duration_seconds,
                manual_pause_active := true }, r.2)

/-- `_manual_pause_tick`: the manual pause's own 1-second callback.
The guard branch handles a stale zero; otherwise it decrements, and on
reaching zero drops its own timer id and resumes the engine if the
engine is still paused.  The final boolean is returned to GLib. -/
def manual_pause_tick (a : MindfulBreakApp) : MindfulBreakApp × List EngineCall × Bool :=
  if a.manual_pause_remaining_seconds ≤ 0 then
    let a := cancel_manual_pause a
    if a.timer_manager.state = TMState.paused then (call_resume a, [.resume_call], false)
    else (a, [], false)
  else
    let a := { a with manual_pause_remaining_seconds := a.manual_pause_remaining_seconds - 1 }
    if a.manual_pause_remaining_seconds ≤ 0 then
      let a := { a with manual_pause_active := false }
      if a.timer_manager.state = TMState.paused then (call_resume a, [.resume_call], false)
      else (a, [], false)
    else (a, [], true)

/-- `on_overlay_postponed` / `on_set_time_dialog_response`: forward to
`timer_manager.postpone(minutes)` with synchronous signal dispatch. -/
def on_overlay_postponed (a : MindfulBreakApp) (minutes : ℚ) : MindfulBreakApp :=
  reactAll { a with timer_manager := (TimerManager.postpone a.timer_manager minutes).1 }
    (TimerManager.postpone a.timer_manager minutes).2

end MindfulBreakApp

/-- The external stimuli the pause arbiter reacts to between a manual
pause request and its expiry: idle transitions, active transitions, and
firings of the manual pause's 1-second countdown. -/
inductive AppEv
  | user_idle_ev
  | user_active_ev
  | manual_pause_tick_ev
deriving DecidableEq, Repr

/-- Dispatch one stimulus to its handler, keeping the engine calls. -/
def MindfulBreakApp.handle (a : MindfulBreakApp) : AppEv → MindfulBreakApp × List EngineCall
  | .user_idle_ev => a.on_user_idle
  | .user_active_ev => a.on_user_active
  | .manual_pause_tick_ev => ((a.manual_pause_tick).1, (a.manual_pause_tick).2.1)

/-- Run a list of stimuli in order, concatenating the engine calls. -/
def MindfulBreakApp.runApp (a : MindfulBreakApp) : List AppEv → MindfulBreakApp × List EngineCall
  | [] => (a, [])
  | e :: evs =>
    let r := a.handle e
    let rest := MindfulBreakApp.runApp r.1 evs
    (rest.1, r.2 ++ rest.2)

/-- While a manual pause is active, an idle transition is ignored:
no engine call, no state change. -/
lemma handle_user_idle_manual (a : MindfulBreakApp) (h : a.manual_pause_active = true) :
    a.handle AppEv.user_idle_ev = (a, []) := by
  simp [MindfulBreakApp.handle, MindfulBreakApp.on_user_idle, h]

/-- While a manual pause is active, an active transition only clears
the idle flag: no engine call. -/
lemma handle_user_active_manual (a : MindfulBreakApp) (h : a.manual_pause_active = true) :
    a.handle AppEv.user_active_ev = ({ a with paused_due_to_idle := false }, []) := by
  simp [MindfulBreakApp.handle, MindfulBreakApp.on_user_active, h]

/-- A manual-pause tick with more than one second left only decrements
the manual countdown: no engine call. -/
lemma handle_manual_tick_mid (a : MindfulBreakApp)
    (h : 1 < a.manual_pause_remaining_seconds) :
    a.handle AppEv.manual_pause_tick_ev
      = ({ a with manual_pause_remaining_seconds
              := a.manual_pause_remaining_seconds - 1 }, []) := by
  have h1 : ¬ a.manual_pause_remaining_seconds ≤ 0 := by omega
  have h2 : ¬ a.manual_pause_remaining_seconds - 1 ≤ 0 := by omega
  simp [MindfulBreakApp.handle, MindfulBreakApp.manual_pause_tick, h1, h2]

/-- The manual-pause tick that reaches zero, with the engine still
paused with time left: it drops the manual pause and resumes the
engine with its counter intact, making exactly one resume call. -/
lemma handle_manual_tick_last (a : MindfulBreakApp)
    (hm : a.manual_pause_remaining_seconds = 1)
    (hst : a.timer_manager.state = TMState.paused)
    (hr : 0 < a.timer_manager.remaining_seconds) :
    a.handle AppEv.manual_pause_tick_ev
      = ({ timer_manager := { a.timer_manager with
             state := TMState.running
             timer_source_active := true },
           paused_due_to_idle := false, manual_pause_active := false,
           manual_pause_remaining_seconds := 0 }, [EngineCall.resume_call]) := by
  obtain ⟨⟨st, ta, rem, cfg⟩, pdi, mpa, mpr⟩ := a
  simp_all [MindfulBreakApp.handle, MindfulBreakApp.manual_pause_tick,
    MindfulBreakApp.call_resume, MindfulBreakApp.reactAll, MindfulBreakApp.react,
    MindfulBreakApp.cancel_manual_pause, TimerManager.resume]

/-- Through any sequence of idle transitions, active transitions and
fewer manual ticks than there are seconds left on an active manual
pause, the arbiter makes no engine call, the manual pause stays active
with the expected seconds left, and the engine is untouched. -/
lemma runApp_manual_inv (evs : List AppEv) :
    ∀ a : MindfulBreakApp, a.manual_pause_active = true →
    (evs.count AppEv.manual_pause_tick_ev : ℤ) < a.manual_pause_remaining_seconds →
    (a.runApp evs).2 = [] ∧
    (a.runApp evs).1.manual_pause_active = true ∧
    (a.runApp evs).1.manual_pause_remaining_seconds
      = a.manual_pause_remaining_seconds - evs.count AppEv.manual_pause_tick_ev ∧
    (a.runApp evs).1.timer_manager = a.timer_manager := by
  induction evs with
  | nil =>
    intro a ha hc
    simp [MindfulBreakApp.runApp, ha]
  | cons e evs ih =>
    intro a ha hc
    cases e with
    | user_idle_ev =>
      have hcnt : (AppEv.user_idle_ev :: evs).count AppEv.manual_pause_tick_ev
          = evs.count AppEv.manual_pause_tick_ev := by
        simp [List.count_cons]
      rw [hcnt] at hc ⊢
      obtain ⟨hA, hB, hC, hD⟩ := ih a ha hc
      simp only [MindfulBreakApp.runApp, handle_user_idle_manual a ha]
      exact ⟨hA, hB, hC, hD⟩
    | user_active_ev =>
      have hcnt : (AppEv.user_active_ev :: evs).count AppEv.manual_pause_tick_ev
          = evs.count AppEv.manual_pause_tick_ev := by
        simp [List.count_cons]
      rw [hcnt] at hc ⊢
      obtain ⟨hA, hB, hC, hD⟩ := ih { a with paused_due_to_idle := false } ha hc
      simp only [MindfulBreakApp.runApp, handle_user_active_manual a ha]
      exact ⟨hA, hB, hC, hD⟩
    | manual_pause_tick_ev =>
      have hcnt : ((AppEv.manual_pause_tick_ev :: evs).count AppEv.manual_pause_tick_ev : ℤ)
          = (evs.count AppEv.manual_pause_tick_ev : ℤ) + 1 := by
        simp [List.count_cons]
      rw [hcnt] at hc
      have hnn : (0 : ℤ) ≤ (evs.count AppEv.manual_pause_tick_ev : ℤ) := Int.natCast_nonneg _
      have h1lt : 1 < a.manual_pause_remaining_seconds := by omega
      have hc' : (evs.count AppEv.manual_pause_tick_ev : ℤ)
          < ({ a with manual_pause_remaining_seconds
                  := a.manual_pause_remaining_seconds - 1 }
              : MindfulBreakApp).manual_pause_remaining_seconds := by
        simp only []
        omega
      obtain ⟨hA, hB, hC, hD⟩ :=
        ih { a with manual_pause_remaining_seconds
                := a.manual_pause_remaining_seconds - 1 } ha hc'
      simp only [MindfulBreakApp.runApp, handle_manual_tick_mid a h1lt]
      refine ⟨hA, hB, ?_, hD⟩
      rw [hC, hcnt]
      simp only []
      omega

/-- A pause-for-duration dialog confirmed with a positive duration
while the engine runs: it makes exactly one pause call, leaves the
engine paused with its counter intact, and arms the manual countdown. -/
lemma on_pause_dialog_ok_running (a : MindfulBreakApp) (D : ℤ) (hD : 0 < D)
    (hrun : a.timer_manager.state = TMState.running) :
    a.on_pause_dialog_ok D
      = ({ timer_manager := { a.timer_manager with
             state := TMState.paused
             timer_source_active := false },
           paused_due_to_idle := false, manual_pause_active := true,
           manual_pause_remaining_seconds := D }, [EngineCall.pause_call]) := by
  obtain ⟨⟨st, ta, rem, cfg⟩, pdi, mpa, mpr⟩ := a
  have hD' : ¬ D ≤ 0 := by omega
  simp only at hrun
  subst hrun
  cases ta <;>
    simp [MindfulBreakApp.on_pause_dialog_ok, MindfulBreakApp.call_pause,
      MindfulBreakApp.reactAll, MindfulBreakApp.react, TimerManager.pause,
      TimerManager.stop_internal_timer, hD']

/-- The behavior claimed for a manual pause of `D` seconds requested on
`a0` while the engine is running: the dialog handler makes the single
pause call and arms the countdown at `D` with the engine paused at its
current counter; through every following sequence of idle transitions,
active transitions and fewer than `D` manual ticks, no engine call is
made and nothing changes on the engine; and the manual tick that
completes the `D` seconds makes the single resume call, leaving the
engine running with the counter it had when paused and the manual
pause gone. -/
def ManualPauseScenario (a0 : MindfulBreakApp) (D : ℤ) : Prop :=
  (a0.on_pause_dialog_ok D).2 = [EngineCall.pause_call] ∧
  (a0.on_pause_dialog_ok D).1.manual_pause_active = true ∧
  (a0.on_pause_dialog_ok D).1.manual_pause_remaining_seconds = D ∧
  (a0.on_pause_dialog_ok D).1.timer_manager.state = TMState.paused ∧
  (a0.on_pause_dialog_ok D).1.timer_manager.remaining_seconds
    = a0.timer_manager.remaining_seconds ∧
  (∀ evs : List AppEv, (evs.count AppEv.manual_pause_tick_ev : ℤ) < D →
    ((a0.on_pause_dialog_ok D).1.runApp evs).2 = [] ∧
    ((a0.on_pause_dialog_ok D).1.runApp evs).1.manual_pause_active = true ∧
    ((a0.on_pause_dialog_ok D).1.runApp evs).1.timer_manager.state = TMState.paused ∧
    ((a0.on_pause_dialog_ok D).1.runApp evs).1.timer_manager.remaining_seconds
      = a0.timer_manager.remaining_seconds) ∧
  (∀ evs : List AppEv, (evs.count AppEv.manual_pause_tick_ev : ℤ) = D - 1 →
    (((a0.on_pause_dialog_ok D).1.runApp evs).1.handle AppEv.manual_pause_tick_ev).2
      = [EngineCall.resume_call] ∧
    (((a0.on_pause_dialog_ok D).1.runApp
        evs).1.handle AppEv.manual_pause_tick_ev).1.timer_manager.state
      = TMState.running ∧
    (((a0.on_pause_dialog_ok D).1.runApp
        evs).1.handle AppEv.manual_pause_tick_ev).1.timer_manager.remaining_seconds
      = a0.timer_manager.remaining_seconds ∧
    (((a0.on_pause_dialog_ok D).1.runApp
        evs).1.handle AppEv.manual_pause_tick_ev).1.manual_pause_active
      = false)

/-- C3: a manual pause of duration `D > 0` requested while the engine
runs results in exactly one `pause()` call; idle and active transitions
arriving while it is active (in particular an idle transition before
`D` expires) neither pause nor resume the engine; and the engine
resumes — via exactly one `resume()` call, only because the engine is
still paused — precisely when the manual countdown reaches 0, with
`remaining_seconds` exactly as at the moment of the pause.  (Explicit
user cancellation via resume/start/postpone is outside this run.) -/
theorem C3_manual_pause_overrides_idle (a0 : MindfulBreakApp) (D : ℤ)
    (hD : 0 < D)
    (hrun : a0.timer_manager.state = TMState.running)
    (hrem : 0 < a0.timer_manager.remaining_seconds) :
    ManualPauseScenario a0 D := by
  have hE := on_pause_dialog_ok_running a0 D hD hrun
  unfold ManualPauseScenario
  rw [hE]
  refine ⟨rfl, rfl, rfl, rfl, rfl, ?_, ?_⟩
  · intro evs hc
    obtain ⟨hA, hB, hC, hD2⟩ := runApp_manual_inv evs
      ({ timer_manager := { a0.timer_manager with
           state := TMState.paused
           timer_source_active := false },
         paused_due_to_idle := false, manual_pause_active := true,
         manual_pause_remaining_seconds := D }) rfl (by simpa using hc)
    refine ⟨hA, hB, ?_, ?_⟩
    · rw [hD2]
    · rw [hD2]
  · intro evs hc
    have hc' : ((evs.count AppEv.manual_pause_tick_ev : ℤ))
        < D := by omega
    obtain ⟨hA, hB, hC, hD2⟩ := runApp_manual_inv evs
      ({ timer_manager := { a0.timer_manager with
           state := TMState.paused
           timer_source_active := false },
         paused_due_to_idle := false, manual_pause_active := true,
         manual_pause_remaining_seconds := D }) rfl (by simpa using hc')
    have hm1 : (MindfulBreakApp.runApp
        ({ timer_manager := { a0.timer_manager with
             state := TMState.paused
             timer_source_active := false },
           paused_due_to_idle := false, manual_pause_active := true,
           manual_pause_remaining_seconds := D } : MindfulBreakApp)
        evs).1.manual_pause_remaining_seconds = 1 := by
      rw [hC]
      simp only []
      omega
    have hms : (MindfulBreakApp.runApp
        ({ timer_manager := { a0.timer_manager with
             state := TMState.paused
             timer_source_active := false },
           paused_due_to_idle := false, manual_pause_active := true,
           manual_pause_remaining_seconds := D } : MindfulBreakApp)
        evs).1.timer_manager.state = TMState.paused := by
      rw [hD2]
    have hmr : 0 < (MindfulBreakApp.runApp
        ({ timer_manager := { a0.timer_manager with
             state := TMState.paused
             timer_source_active := false },
           paused_due_to_idle := false, manual_pause_active := true,
           manual_pause_remaining_seconds := D } : MindfulBreakApp)
        evs).1.timer_manager.remaining_seconds := by
      rw [hD2]
      exact hrem
    rw [handle_manual_tick_last _ hm1 hms hmr]
    refine ⟨rfl, rfl, ?_, rfl⟩
    simp only []
    rw [hD2]

/-- A concrete arbiter state: engine running at 40 of 60 seconds, no
idle pause, no manual pause. -/
def arbiterExample : MindfulBreakApp :=
  { timer_manager :=
      { state := TMState.running
        timer_source_active := true
        remaining_seconds := 40
        configured_interval_seconds := 60 }
    paused_due_to_idle := false
    manual_pause_active := false
    manual_pause_remaining_seconds := 0 }

/-- C3 witness: a 10-second manual pause requested while the engine
runs at 40 seconds satisfies the whole scenario. -/
theorem C3_witness :
    (0 : ℤ) < 10 ∧
    arbiterExample.timer_manager.state = TMState.running ∧
    (0 : ℤ) < arbiterExample.timer_manager.remaining_seconds ∧
    ManualPauseScenario arbiterExample 10 :=
  ⟨by decide, by decide, by decide,
   C3_manual_pause_overrides_idle arbiterExample 10 (by decide) (by decide) (by decide)⟩

/-- C6: `postpone(5)` from any prior engine state force-enters
`running` with `remaining_seconds = 300`, emitting `timer_started` then
an immediate `timer_tick 300`; in general `postpone(m)` force-enters
`running` with `max 1 (pyRound (m*60))` seconds and the same emission
pattern; and at the application layer the `timer_started` signal the
postpone emits cancels any active manual pause and clears the
idle-pause flag, so no pause cause survives the postpone. -/
theorem C6_postpone_force_running (t : TimerManager) (m : ℚ) (a : MindfulBreakApp) :
    TimerManager.postpone t 5
      = ({ t with
           state := TMState.running
           remaining_seconds := 300
           timer_source_active := true },
         [TimerEv.timer_started, TimerEv.timer_tick 300]) ∧
    (TimerManager.postpone t m).1.state = TMState.running ∧
    (TimerManager.postpone t m).1.remaining_seconds = max 1 (pyRound (m * 60)) ∧
    (TimerManager.postpone t m).2
      = [TimerEv.timer_started, TimerEv.timer_tick (max 1 (pyRound (m * 60)))] ∧
    (MindfulBreakApp.on_overlay_postponed a m).manual_pause_active = false ∧
    (MindfulBreakApp.on_overlay_postponed a m).paused_due_to_idle = false := by
  have hmax : (if pyRound (m * 60) < 1 then 1 else pyRound (m * 60))
      = max 1 (pyRound (m * 60)) := by
    split <;> omega
  refine ⟨?_, ?_, ?_, ?_, ?_, ?_⟩
  · obtain ⟨st, ta, rem, cfg⟩ := t
    cases ta <;>
      norm_num [TimerManager.postpone, TimerManager.stop_internal_timer,
        pyRound_three_hundred]
  · obtain ⟨st, ta, rem, cfg⟩ := t
    cases ta <;>
      simp [TimerManager.postpone, TimerManager.stop_internal_timer]
  · obtain ⟨st, ta, rem, cfg⟩ := t
    cases ta <;>
      simp [TimerManager.postpone, TimerManager.stop_internal_timer, hmax]
  · obtain ⟨st, ta, rem, cfg⟩ := t
    cases ta <;>
      simp [TimerManager.postpone, TimerManager.stop_internal_timer, hmax]
  · obtain ⟨⟨st, ta, rem, cfg⟩, pdi, mpa, mpr⟩ := a
    cases ta <;> cases mpa <;>
      simp [MindfulBreakApp.on_overlay_postponed, MindfulBreakApp.reactAll,
        MindfulBreakApp.react, MindfulBreakApp.cancel_manual_pause,
        TimerManager.postpone, TimerManager.stop_internal_timer]
  · obtain ⟨⟨st, ta, rem, cfg⟩, pdi, mpa, mpr⟩ := a
    cases ta <;> cases mpa <;>
      simp [MindfulBreakApp.on_overlay_postponed, MindfulBreakApp.reactAll,
        MindfulBreakApp.react, MindfulBreakApp.cancel_manual_pause,
        TimerManager.postpone, TimerManager.stop_internal_timer]
